import Mathlib

/-!
Verification of the planar computational-geometry core (geometry/plane.py and
geometry/algorithms.py) of the computational-geometry repository.

Modelling conventions.
* Coordinates are rationals.  The source stores Python floats but every predicate
  in it is an exact comparison of arithmetic expressions, so the rational model
  reproduces the source expressions verbatim.
* The source computes Euclidean distances and circle radii with a final sqrt
  (exponent 0.5).  Square roots of nonnegative reals are strictly monotone, so
  every comparison of two such values in the source is modelled by the same
  comparison of their squares; definitions below that carry Sq in the name or a
  field named rsq hold the square of the quantity of the source.
* Python runtime failures are modelled with Except: a raised exception is an
  error value that aborts the computation, exactly as an uncaught Python
  exception propagates out of the algorithm.
* Python sets and dicts are modelled as lists in construction order; the source
  iterates over sets whose order CPython leaves unspecified, so the list order
  stands for one concrete iteration order.  Membership, removal and dict lookup
  use the eq methods of the source classes (coordinate equality for points,
  order-insensitive comparison for segments and triangles).
-/

deriving instance DecidableEq for Except

namespace CompGeo

/-- Planar point, from class Point of geometry/plane.py.  The canvas id kept by
the GUI wrapper is rendering state and is omitted. -/
structure Point where
  x : ℚ
  y : ℚ
deriving DecidableEq, Repr

/-- Point.__mul__: the dot product of two points. -/
def Point.dot (p q : Point) : ℚ :=
  p.x * q.x + p.y * q.y

/-- Square of Point.distance_to.  The source returns the square root; all uses
compare two distances, and comparisons of square roots of nonnegatives agree
with comparisons of the radicands. -/
def Point.distSq (p q : Point) : ℚ :=
  (p.x - q.x) ^ 2 + (p.y - q.y) ^ 2

/-- Point.midpoint: the point halfway between this point and another. -/
def Point.midpoint (p q : Point) : Point :=
  ⟨(p.x + q.x) / 2, (p.y + q.y) / 2⟩

/-- Failure kinds the source can surface.  Segment.__init__ and
Line.from_two_points raise a bare Exception on coincident points, which the
spec names InvalidGeometry.  Division by a vanishing determinant raises
ZeroDivisionError.  Calling the undefined method shares_vertex (the class
defines shares_point) or an attribute of None raises AttributeError.  A dict
lookup on an absent key raises KeyError.  DegenerateInput is the error class
the spec asks to be added; the source never raises it. -/
inductive GeomError where
  | invalidGeometry
  | zeroDivisionError
  | attributeError
  | keyError
  | degenerateInput
deriving DecidableEq, Repr

/-- Straight segment between two distinct points, from class Segment. -/
structure Segment where
  p1 : Point
  p2 : Point
deriving DecidableEq, Repr

/-- Segment.__init__: raises (spec: InvalidGeometry) when the endpoints
coincide. -/
def Segment.make (p q : Point) : Except GeomError Segment :=
  if p = q then .error .invalidGeometry else .ok ⟨p, q⟩

/-- Segment.__eq__, verbatim: not ({self.p1, self.p2} - {other.p1, other.p2}),
i.e. the endpoint set of self is a subset of the endpoint set of other.  For
segments with distinct endpoints this is order-insensitive pair equality. -/
def Segment.eqSet (s t : Segment) : Bool :=
  decide (s.p1 = t.p1 ∨ s.p1 = t.p2) && decide (s.p2 = t.p1 ∨ s.p2 = t.p2)

/-- Triangle of three points, from class Triangle.  The constructor enforces
nothing; the algorithms only build triangles with pairwise distinct
vertices. -/
structure Triangle where
  p1 : Point
  p2 : Point
  p3 : Point
deriving DecidableEq, Repr

/-- Triangle.__eq__, verbatim subset test of the vertex sets. -/
def Triangle.eqSet (s t : Triangle) : Bool :=
  decide (s.p1 = t.p1 ∨ s.p1 = t.p2 ∨ s.p1 = t.p3) &&
  decide (s.p2 = t.p1 ∨ s.p2 = t.p2 ∨ s.p2 = t.p3) &&
  decide (s.p3 = t.p1 ∨ s.p3 = t.p2 ∨ s.p3 = t.p3)

/-- Triangle.strictly_contains: barycentric-coordinate interior test, verbatim
from the source (boundary points give False). -/
def Triangle.strictly_contains (t : Triangle) (p : Point) : Bool :=
  let dX := p.x - t.p3.x
  let dY := p.y - t.p3.y
  let dXp3p2 := t.p3.x - t.p2.x
  let dYp2p3 := t.p2.y - t.p3.y
  let d := dYp2p3 * (t.p1.x - t.p3.x) + dXp3p2 * (t.p1.y - t.p3.y)
  let s := dYp2p3 * dX + dXp3p2 * dY
  let tt := (t.p3.y - t.p1.y) * dX + (t.p1.x - t.p3.x) * dY
  if d < 0 then decide (s < 0) && decide (tt < 0) && decide (s + tt > d)
  else decide (s > 0) && decide (tt > 0) && decide (s + tt < d)

/-- Triangle.shares_point: whether the other triangle has a vertex among the
vertices of this one.  Note the name: delaunay_triangulation calls a method
named shares_vertex, which the class does not define. -/
def Triangle.shares_point (t o : Triangle) : Bool :=
  decide (o.p1 = t.p1 ∨ o.p1 = t.p2 ∨ o.p1 = t.p3) ||
  decide (o.p2 = t.p1 ∨ o.p2 = t.p2 ∨ o.p2 = t.p3) ||
  decide (o.p3 = t.p1 ∨ o.p3 = t.p2 ∨ o.p3 = t.p3)

/-- General line a*x + b*y + c = 0, from class Line.  The data model of the
spec requires at least one of a, b nonzero; the constructor of the source does
not enforce it, and the algorithms only build lines satisfying it. -/
structure Line where
  a : ℚ
  b : ℚ
  c : ℚ
deriving DecidableEq, Repr

/-- Line.slope, computed in Line.__init__: -a/b when b is nonzero, otherwise
None (vertical line). -/
def Line.slope (l : Line) : Option ℚ :=
  if l.b ≠ 0 then some (-l.a / l.b) else none

/-- Total core of Line.from_two_points, used internally by the algorithms,
which only ever pass distinct points (so the coincidence check of the source
never fires on these calls). -/
def lineThrough (p1 p2 : Point) : Line :=
  if p1.x = p2.x then ⟨1, 0, -p1.x⟩
  else
    let m := (p2.y - p1.y) / (p2.x - p1.x)
    ⟨m, -1, p1.y - m * p1.x⟩

/-- Line.from_two_points: raises (spec: InvalidGeometry) on equal points, else
the vertical line a=1, b=0 when the abscissas match, else slope-intercept form
recast as a general line. -/
def Line.from_two_points (p1 p2 : Point) : Except GeomError Line :=
  if p1 = p2 then .error .invalidGeometry else .ok (lineThrough p1 p2)

/-- Line.is_strictly_below, verbatim: for a vertical line compare -c/a with the
abscissa of p, otherwise compare the ordinate of the line at p.x with the
ordinate of p.  Points on the line give False.  The division is total in the
model; the source would raise ZeroDivisionError on the degenerate line
a = b = 0, which no algorithm builds. -/
def Line.is_strictly_below (l : Line) (p : Point) : Bool :=
  if l.b = 0 then decide (-l.c / l.a < p.x)
  else decide (-(p.x * l.a + l.c) / l.b < p.y)

/-- Line.contains: exact test that p satisfies the line equation. -/
def Line.contains (l : Line) (p : Point) : Bool :=
  decide (l.a * p.x + l.b * p.y + l.c = 0)

/-- Line.intersection, verbatim: None when the slopes (Option values) are
equal, which covers parallel, coincident, and two vertical lines; otherwise
the solution of the two equations, using whichever line has a nonzero to
recover the abscissa. -/
def Line.intersection (l o : Line) : Option Point :=
  if l.slope = o.slope then none
  else
    let y := (l.a * o.c - o.a * l.c) / (o.a * l.b - l.a * o.b)
    let ln := if l.a ≠ 0 then l else o
    some ⟨-ln.b * y / ln.a - ln.c / ln.a, y⟩

/-- Line.orthogonal_line, verbatim: None when p is not on the line, otherwise
the perpendicular line through p (vertical and horizontal special cases
first). -/
def Line.orthogonal_line (l : Line) (p : Point) : Option Line :=
  if ¬ l.contains p then none
  else if l.a = 0 then some ⟨1, 0, -p.x⟩
  else if l.b = 0 then some ⟨0, 1, -p.y⟩
  else
    let m := -1 / (-l.a / l.b)
    some ⟨m, -1, p.y - m * p.x⟩

/-- Square of Line.distance_to, branch for branch from the source; each branch
of the source is an absolute value or a point distance, and squaring preserves
all comparisons between such values. -/
def Line.distSq (l : Line) (p : Point) : ℚ :=
  if l.a = 0 then (p.y + l.c / l.b) ^ 2
  else if l.b = 0 then (p.x + l.c / l.a) ^ 2
  else
    let m := -l.a / l.b
    let y := (m * l.c + p.y * l.a + m * p.x * l.a) / (l.a - m * l.b)
    let x := -(l.b * y + l.c) / l.a
    Point.distSq ⟨x, y⟩ p

/-- Circle with centre (h, k); the field rsq is the square of the radius of the
source (the source takes a final square root that only ever feeds comparisons
against distances). -/
structure Circle where
  h : ℚ
  k : ℚ
  rsq : ℚ
deriving DecidableEq, Repr

/-- Determinant denominator of Circle.from_triangle, verbatim. -/
def triD1 (t : Triangle) : ℚ :=
  t.p1.x * (t.p2.y - t.p3.y) - t.p2.x * (t.p1.y - t.p3.y) + t.p3.x * (t.p1.y - t.p2.y)

/-- Abscissa numerator of the circumcentre in Circle.from_triangle, verbatim. -/
def circSx (t : Triangle) : ℚ :=
  (1 / 2 : ℚ) * (t.p1.dot t.p1 * (t.p2.y - t.p3.y) - t.p2.dot t.p2 * (t.p1.y - t.p3.y)
    + t.p3.dot t.p3 * (t.p1.y - t.p2.y))

/-- Ordinate numerator of the circumcentre in Circle.from_triangle, verbatim. -/
def circSy (t : Triangle) : ℚ :=
  (1 / 2 : ℚ) * (-(t.p1.dot t.p1) * (t.p2.x - t.p3.x) + t.p2.dot t.p2 * (t.p1.x - t.p3.x)
    - t.p3.dot t.p3 * (t.p1.x - t.p2.x))

/-- Second determinant of Circle.from_triangle, verbatim. -/
def circD2 (t : Triangle) : ℚ :=
  t.p1.dot t.p1 * (t.p2.x * t.p3.y - t.p2.y * t.p3.x)
    - t.p2.dot t.p2 * (t.p1.x * t.p3.y - t.p1.y * t.p3.x)
    + t.p3.dot t.p3 * (t.p1.x * t.p2.y - t.p1.y * t.p2.x)

/-- Circle.from_triangle: the circumscribed circle by the determinant formula.
The source divides by d1, so collinear vertices (d1 = 0) raise
ZeroDivisionError.  rsq is the radicand d2/d1 + (s*s)/d1^2 whose square root
the source stores as the radius. -/
def Circle.from_triangle (t : Triangle) : Except GeomError Circle :=
  if triD1 t = 0 then .error .zeroDivisionError
  else
    .ok ⟨circSx t / triD1 t, circSy t / triD1 t,
      circD2 t / triD1 t + (circSx t * circSx t + circSy t * circSy t) / triD1 t ^ 2⟩

/-- Circle.strictly_contains: distance from the centre to p strictly below the
radius, modelled on squares. -/
def Circle.strictly_contains (c : Circle) (p : Point) : Bool :=
  decide (Point.distSq ⟨c.h, c.k⟩ p < c.rsq)

/-! Algorithms of geometry/algorithms.py.  Python set inputs and the working
sets of the algorithms are modelled as lists in iteration order.  Python max
and min with a key return the first element attaining the extremum; the same
holds for List.argmax and List.argmin, whose tie goes to the earlier
element. -/

/-- Python max(l, key := f) for a nonempty list: first element with maximal
key.  The default value is never used: the source raises on empty input and
every call site passes a nonempty list. -/
def maxByQ (f : Point → ℚ) (l : List Point) : Point :=
  (l.argmax f).getD ⟨0, 0⟩

/-- Python min(l, key := f) for a nonempty list: first element with minimal
key. -/
def minByQ (f : Point → ℚ) (l : List Point) : Point :=
  (l.argmin f).getD ⟨0, 0⟩

/-- Inner helper find_hull of convex_hull, verbatim: pick the point of pts
farthest from the line p1-p2 (first maximum, as Python max), drop the points
strictly inside the triangle p1, fp, p2 together with fp itself, split the
rest by the line p1-fp (which side collects the on-line points depends on
which side of the main line fp lies), and recurse, emitting fp between the two
recursive hull pieces (the source appends to a shared accumulator in exactly
this order).  The first argument is recursion fuel that keeps the definition
structurally recursive and hence computable by the kernel: both candidate
lists of the recursive calls omit fp and so are strictly shorter than pts,
which gives the invariant fuel at least the length of pts when the caller
passes the length, so the fuel-exhausted branch is only reached with an empty
candidate list and agrees with the base case of the source. -/
def findHull : Nat → List Point → Point → Point → List Point
  | _, [], _, _ => []
  | 0, _, _, _ => []
  | fuel + 1, q :: qs, p1, p2 =>
    let pts := q :: qs
    let mainLine := lineThrough p1 p2
    let fp := maxByQ (fun p => mainLine.distSq p) pts
    let tri : Triangle := ⟨p1, fp, p2⟩
    let pts2 := pts.filter fun p => !(tri.strictly_contains p) && !(decide (p = fp))
    let lineP1fp := lineThrough p1 fp
    let pred : Point → Bool :=
      if mainLine.is_strictly_below fp then
        fun p => lineP1fp.is_strictly_below p || lineP1fp.contains p
      else
        fun p => !(lineP1fp.is_strictly_below p)
    let part := pts2.partition pred
    findHull fuel part.1 p1 fp ++ fp :: findHull fuel part.2 fp p2

/-- geometry/algorithms.py convex_hull (Quickhull).  The input set is a list in
iteration order.  At most 3 points are returned as the list itself.  The
leftmost scan keeps the first minimal abscissa; the rightmost scan of the
source walks the list from the tail, so among ties it keeps the last maximal
abscissa, hence the first maximum of the reversed list. -/
def convex_hull (points : List Point) : List Point :=
  if points.length ≤ 3 then points
  else
    let min_x := minByQ (fun p => p.x) points
    let max_x := maxByQ (fun p => p.x) points.reverse
    let line := lineThrough min_x max_x
    let above := points.filter fun p => line.is_strictly_below p
    let rest := (points.filter fun p => !(line.is_strictly_below p)).filter
      fun p => !(decide (p = min_x)) && !(decide (p = max_x))
    min_x :: (findHull above.length above min_x max_x
      ++ max_x :: findHull rest.length rest max_x min_x)

/-! Divide-and-conquer convex hull.  The spec describes a second hull
construction (section 4.2) that has no code under src/; the following
definitions are modelled from the spec. -/

/-- Modelled from the spec: the x-sort preceding the divide-and-conquer hull,
"sorted by x-coordinate (ties broken arbitrarily but consistently)"; ties are
broken by ordinate. -/
def lexLe (p q : Point) : Bool :=
  decide (p.x < q.x ∨ (p.x = q.x ∧ p.y ≤ q.y))

/-- Insertion step of the x-sort. -/
def insertLex (p : Point) : List Point → List Point
  | [] => [p]
  | q :: qs => if lexLe p q then p :: q :: qs else q :: insertLex p qs

/-- Modelled from the spec: insertion sort by lexLe. -/
def sortLex : List Point → List Point
  | [] => []
  | p :: ps => insertLex p (sortLex ps)

/-- Modelled from the spec: the tangent walk of the divide-and-conquer merge,
"from a seed index, evaluate whether moving the candidate tangent point on
either hull strictly improves the tangent (using the opposite hull's
predicate), stepping inward until neither side improves".  For the upper
tangent between the upper chains A (left) and B (right) the candidate point
on A moves left while the previous point of A lies strictly above the
candidate line, and the candidate point on B moves right likewise; the fuel
bounds the walk by the total number of points, which the walk never
exhausts. -/
def upperTangentWalk (A B : List Point) : Nat → Nat × Nat → Nat × Nat
  | 0, ij => ij
  | fuel + 1, (ia, jb) =>
    let t := lineThrough (A.getD ia ⟨0, 0⟩) (B.getD jb ⟨0, 0⟩)
    if 0 < ia ∧ t.is_strictly_below (A.getD (ia - 1) ⟨0, 0⟩) then
      upperTangentWalk A B fuel (ia - 1, jb)
    else if jb + 1 < B.length ∧ t.is_strictly_below (B.getD (jb + 1) ⟨0, 0⟩) then
      upperTangentWalk A B fuel (ia, jb + 1)
    else (ia, jb)

/-- Modelled from the spec: the lower-tangent walk, dual to the upper one; a
candidate moves while its neighbour lies strictly below the candidate line. -/
def lowerTangentWalk (A B : List Point) : Nat → Nat × Nat → Nat × Nat
  | 0, ij => ij
  | fuel + 1, (ia, jb) =>
    let t := lineThrough (A.getD ia ⟨0, 0⟩) (B.getD jb ⟨0, 0⟩)
    if 0 < ia ∧ ¬ (t.is_strictly_below (A.getD (ia - 1) ⟨0, 0⟩)) ∧
        ¬ (t.contains (A.getD (ia - 1) ⟨0, 0⟩)) then
      lowerTangentWalk A B fuel (ia - 1, jb)
    else if jb + 1 < B.length ∧ ¬ (t.is_strictly_below (B.getD (jb + 1) ⟨0, 0⟩)) ∧
        ¬ (t.contains (B.getD (jb + 1) ⟨0, 0⟩)) then
      lowerTangentWalk A B fuel (ia, jb + 1)
    else (ia, jb)

/-- Modelled from the spec: merge of two upper half-hulls by the upper common
tangent. -/
def upperMerge (A B : List Point) : List Point :=
  let ij := upperTangentWalk A B (A.length + B.length) (A.length - 1, 0)
  A.take (ij.1 + 1) ++ B.drop ij.2

/-- Modelled from the spec: merge of two lower half-hulls by the lower common
tangent. -/
def lowerMerge (A B : List Point) : List Point :=
  let ij := lowerTangentWalk A B (A.length + B.length) (A.length - 1, 0)
  A.take (ij.1 + 1) ++ B.drop ij.2

/-- Modelled from the spec: upper hull of an x-sorted list; at most 2 points
are their own chain, otherwise split at the midpoint and merge the recursive
upper hulls by the upper tangent.  The fuel keeps the recursion structural;
both halves of a list of 3 or more points are strictly shorter, so fuel equal
to the length is ample and the fuel-exhausted branch is only reached on lists
of at most 2 points, where it agrees with the base case. -/
def upperHullDC : Nat → List Point → List Point
  | 0, l => l
  | fuel + 1, l =>
    if l.length ≤ 2 then l
    else upperMerge (upperHullDC fuel (l.take (l.length / 2)))
      (upperHullDC fuel (l.drop (l.length / 2)))

/-- Modelled from the spec: lower hull of an x-sorted list, fuelled like the
upper hull. -/
def lowerHullDC : Nat → List Point → List Point
  | 0, l => l
  | fuel + 1, l =>
    if l.length ≤ 2 then l
    else lowerMerge (lowerHullDC fuel (l.take (l.length / 2)))
      (lowerHullDC fuel (l.drop (l.length / 2)))

/-- Modelled from the spec: divide-and-conquer convex hull via common
tangents; the final hull is upper_hull[:-1] + reverse(lower_hull)[:-1], a
polygon without a duplicated closing vertex.  For at most one point that
assembly formula would return the empty list while the spec asks the hull of
at most 2 points to be the points unchanged, so such inputs are returned
unchanged. -/
def dc_convex_hull (points : List Point) : List Point :=
  if points.length ≤ 1 then points
  else
    let s := sortLex points
    (upperHullDC s.length s).dropLast ++ (lowerHullDC s.length s).reverse.dropLast

/-! Bowyer-Watson Delaunay triangulation (delaunay_triangulation of
geometry/algorithms.py). -/

/-- The three edges of a triangle, as built inline by delaunay_triangulation
and voronoi_diagram.  The Segment constructor check cannot fire here: every
triangle the algorithm builds has pairwise distinct vertices (the input is a
set, and each inserted point is distinct from all current vertices). -/
def Triangle.edges (t : Triangle) : List Segment :=
  [⟨t.p1, t.p2⟩, ⟨t.p2, t.p3⟩, ⟨t.p3, t.p1⟩]

/-- The comprehension choosing the bad triangles: every triangle of the
working set has its circumcircle computed (a collinear one raises
ZeroDivisionError, aborting at the first offender in iteration order), and the
triangles whose circumcircle strictly contains p are kept in order. -/
def badTriangles (p : Point) : List Triangle → Except GeomError (List Triangle)
  | [] => .ok []
  | t :: ts => do
    let c ← Circle.from_triangle t
    let rest ← badTriangles p ts
    pure (if c.strictly_contains p then t :: rest else rest)

/-- Removal of the first segment matching e under Segment.__eq__, as
set.remove does. -/
def removeSeg : List Segment → Segment → List Segment
  | [], _ => []
  | s :: ss, e => if Segment.eqSet s e then ss else s :: removeSeg ss e

/-- One edge toggle of the boundary-polygon computation: an edge already in
the polygon set is removed (it is interior to the union of bad triangles),
otherwise it is added. -/
def polygonToggle (poly : List Segment) (e : Segment) : List Segment :=
  if poly.any fun s => Segment.eqSet s e then removeSeg poly e else poly ++ [e]

/-- One insertion round of Bowyer-Watson, lines 72 to 86 of the source: find
the bad triangles, build the boundary polygon by edge parity, drop the bad
triangles from the working set and add one new triangle per boundary edge
(set union: a new triangle already present is not duplicated). -/
def bowyerStep (tri : List Triangle) (p : Point) : Except GeomError (List Triangle) := do
  let bad ← badTriangles p tri
  let polygon := bad.foldl (fun poly t => t.edges.foldl polygonToggle poly) []
  let kept := tri.filter fun t => !(bad.any fun b => Triangle.eqSet b t)
  let newSet := polygon.foldl (fun acc e =>
    let nt : Triangle := ⟨e.p1, e.p2, p⟩
    if acc.any fun s => Triangle.eqSet s nt then acc else acc ++ [nt]) []
  pure (kept ++ newSet.filter fun nt => !(kept.any fun s => Triangle.eqSet s nt))

/-- geometry/algorithms.py delaunay_triangulation.  At most 2 points yield the
empty set.  Otherwise a super-triangle padded by 1 unit around the bounding
box seeds the working set and every point is inserted in iteration order.
The final line of the source filters the working set with
triangle.shares_vertex(super_triangle); class Triangle defines shares_point
and no shares_vertex, so as soon as the filter examines one triangle Python
raises AttributeError.  The working set is empty at that line only if it was
emptied by the insertions, in which case the comprehension never evaluates
its condition and the empty set is returned.  The apex of the super-triangle
is the intersection of two lines of opposite nonzero slope, which never
returns None; the unreachable branch is modelled as the AttributeError that
using None as a point would raise. -/
def delaunay_triangulation (points : List Point) : Except GeomError (List Triangle) :=
  if points.length ≤ 2 then .ok []
  else
    let min_x := minByQ (fun p => p.x) points
    let max_x := maxByQ (fun p => p.x) points
    let min_y := minByQ (fun p => p.y) points
    let max_y := maxByQ (fun p => p.y) points
    let l1 := lineThrough ⟨min_x.x - 1, min_y.y - 1⟩ ⟨min_x.x, max_y.y + 1⟩
    let l2 := lineThrough ⟨max_x.x + 1, min_y.y - 1⟩ ⟨max_x.x, max_y.y + 1⟩
    match l1.intersection l2 with
    | none => .error .attributeError
    | some apex => do
      let superT : Triangle := ⟨⟨min_x.x - 1, min_y.y - 1⟩, ⟨max_x.x + 1, min_y.y - 1⟩, apex⟩
      let final ← points.foldlM bowyerStep [superT]
      if final.isEmpty then pure final else .error .attributeError

/-! Voronoi diagram (voronoi_diagram of geometry/algorithms.py).  The ray
angles of the source are arctangent values, so the emitted rays live over the
reals; the diagram is computed in two stages: a computable core that gathers
for each emitted ray its origin, its supporting line and the recorded side
flag, and a map assigning each such descriptor its direction angle. -/

/-- Lookup in a dict keyed by segments: CPython compares the stored key with
the probe using Segment.__eq__. -/
def dictFind {α : Type} : List (Segment × α) → Segment → Option α
  | [], _ => none
  | (k, v) :: rest, e => if Segment.eqSet k e then some v else dictFind rest e

/-- Insertion or update in a dict keyed by segments; an existing key keeps its
position and original key object, as CPython dicts do. -/
def dictInsert {α : Type} : List (Segment × α) → Segment → α → List (Segment × α)
  | [], e, v => [(e, v)]
  | (k, w) :: rest, e, v =>
    if Segment.eqSet k e then (k, v) :: rest else (k, w) :: dictInsert rest e v

/-- Addition to the result set of segments (dedup by Segment.__eq__). -/
def addSegSet (l : List Segment) (s : Segment) : List Segment :=
  if l.any fun t => Segment.eqSet t s then l else l ++ [s]

/-- The data determining one emitted ray: the circumcentre it starts from, the
perpendicular line through the edge midpoint, and the recorded side flag of
the edge.  The direction angle of the ray is a function of exactly these. -/
structure RayDescr where
  origin : Point
  line : Line
  below : Bool
deriving DecidableEq, Repr

/-- State of the gathering loop of voronoi_diagram, lines 96 to 111: the two
circumcentre dicts and the side-flag dict. -/
def voronoiGather (triangles : List Triangle) :
    Except GeomError
      (List (Segment × Point) × List (Segment × Point) × List (Segment × Bool)) :=
  triangles.foldlM
    (fun st t => do
      let (c1, c2, ebp) := st
      let circ ← Circle.from_triangle t
      let center : Point := ⟨circ.h, circ.k⟩
      let e1 : Segment := ⟨t.p1, t.p2⟩
      let e2 : Segment := ⟨t.p2, t.p3⟩
      let e3 : Segment := ⟨t.p3, t.p1⟩
      let ebp := dictInsert ebp e1 ((lineThrough t.p1 t.p2).is_strictly_below t.p3)
      let ebp := dictInsert ebp e2 ((lineThrough t.p2 t.p3).is_strictly_below t.p1)
      let ebp := dictInsert ebp e3 ((lineThrough t.p3 t.p1).is_strictly_below t.p2)
      let upd := fun (cc : List (Segment × Point) × List (Segment × Point)) e =>
        match dictFind cc.1 e with
        | some _ => (cc.1, dictInsert cc.2 e center)
        | none => (dictInsert cc.1 e center, cc.2)
      let cc := [e1, e2, e3].foldl upd (c1, c2)
      pure (cc.1, cc.2, ebp))
    ([], [], [])

/-- Emission loop of voronoi_diagram, lines 112 to 127: edges seen by two
triangles give the segment between the two circumcentres (the Segment
constructor raises when the circumcentres coincide); edges of one triangle
give a ray descriptor from the perpendicular at the edge midpoint.  The
midpoint always lies on the chord, so orthogonal_line never returns None,
and the side-flag dict always holds every emitted edge; the unreachable
misses are modelled as the errors Python would raise. -/
def voronoiEmit (c1 c2 : List (Segment × Point)) (ebp : List (Segment × Bool)) :
    Except GeomError (List Segment × List RayDescr) :=
  c1.foldlM
    (fun acc kv => do
      let (edge, point) := kv
      match dictFind c2 edge with
      | some other =>
        if point = other then .error .invalidGeometry
        else pure (addSegSet acc.1 ⟨point, other⟩, acc.2)
      | none =>
        let mp := edge.p1.midpoint edge.p2
        match (lineThrough edge.p1 edge.p2).orthogonal_line mp with
        | none => .error .attributeError
        | some l =>
          match dictFind ebp edge with
          | none => .error .keyError
          | some below =>
            let d : RayDescr := ⟨point, l, below⟩
            pure (acc.1, if acc.2.contains d then acc.2 else acc.2 ++ [d]))
    ([], [])

/-- Computable core of voronoi_diagram: everything except the final
arctangent.  Ray deduplication (the result is a Python set of rays compared
by origin and angle) is modelled on descriptors, which determine the angle. -/
def voronoi_core (points : List Point) : Except GeomError (List Segment × List RayDescr) :=
  if points.length ≤ 2 then .ok ([], [])
  else do
    let triangles ← delaunay_triangulation points
    let (c1, c2, ebp) ← voronoiGather triangles
    voronoiEmit c1 c2 ebp

/-- Ray of the source: an origin point and a real direction angle. -/
structure Ray where
  p : Point
  angle : ℝ

open scoped Classical in
/-- Angle computation of voronoi_diagram, lines 120 to 126, verbatim: a
horizontal perpendicular (a = 0) gives pi or 0, a vertical one (b = 0) gives
3 pi/2 or pi/2, and otherwise the arctangent of the slope -a/b, adjusted to
the second quadrant for negative slope and rotated by pi when the recorded
side flag is set. -/
noncomputable def rayAngle (a b : ℝ) (below : Bool) : ℝ :=
  if a = 0 then (if below then Real.pi else 0)
  else if b = 0 then (if below then 3 * Real.pi / 2 else Real.pi / 2)
  else
    let slope := -a / b
    let base := if 0 ≤ slope then Real.arctan slope else Real.pi - |Real.arctan slope|
    if below then Real.pi + base else base

/-- The ray built from a descriptor: Ray(point, angle) of line 127. -/
noncomputable def mkRay (d : RayDescr) : Ray :=
  ⟨d.origin, rayAngle (d.line.a : ℝ) (d.line.b : ℝ) d.below⟩

/-- geometry/algorithms.py voronoi_diagram: the computable core with the
angle of each emitted ray filled in. -/
noncomputable def voronoi_diagram (points : List Point) :
    Except GeomError (List Segment × List Ray) :=
  (voronoi_core points).map fun sr => (sr.1, sr.2.map mkRay)

/-- Collinearity of the three vertices of a triangle, stated as the vanishing
cross product of the two edge vectors at the first vertex. -/
def Collinear3 (t : Triangle) : Prop :=
  (t.p2.x - t.p1.x) * (t.p3.y - t.p1.y) = (t.p3.x - t.p1.x) * (t.p2.y - t.p1.y)

/-! Theorems. -/

set_option maxHeartbeats 1600000 in
/-- The radicand stored in the rsq field by Circle.from_triangle is exactly
the squared distance from the circumcentre to the first vertex, which
justifies modelling the radius of the source by its square. -/
theorem from_triangle_rsq_eq_distSq (t : Triangle) (h : triD1 t ≠ 0) :
    circD2 t / triD1 t + (circSx t * circSx t + circSy t * circSy t) / triD1 t ^ 2
      = Point.distSq ⟨circSx t / triD1 t, circSy t / triD1 t⟩ t.p1 := by
  have key : circD2 t * triD1 t + (circSx t * circSx t + circSy t * circSy t)
      = (circSx t - t.p1.x * triD1 t) ^ 2 + (circSy t - t.p1.y * triD1 t) ^ 2 := by
    unfold circD2 circSx circSy triD1 Point.dot
    ring
  unfold Point.distSq
  field_simp
  linear_combination triD1 t ^ 3 * key

/-- C5: Segment construction and Line.from_two_points fail with the
InvalidGeometry error exactly when the two points coincide, and succeed on
every pair of distinct points. -/
theorem claim_C5_construction_iff_distinct (p q : Point) :
    (Segment.make p q = .error .invalidGeometry ↔ p = q) ∧
    ((∃ s, Segment.make p q = .ok s) ↔ p ≠ q) ∧
    (Line.from_two_points p q = .error .invalidGeometry ↔ p = q) ∧
    ((∃ l, Line.from_two_points p q = .ok l) ↔ p ≠ q) := by
  by_cases hpq : p = q <;>
    simp [Segment.make, Line.from_two_points, hpq]

/-- C8: convex_hull returns inputs of at most 3 points directly, in
particular inputs of at most 2 points unchanged. -/
theorem claim_C8_small_inputs (l : List Point) (h : l.length ≤ 3) :
    convex_hull l = l := by
  simp [convex_hull, h]

/-- Witness for C8 at a concrete two-point input. -/
theorem claim_C8_small_inputs_witness :
    ([⟨0, 0⟩, ⟨5, 5⟩] : List Point).length ≤ 3 ∧
    convex_hull [⟨0, 0⟩, ⟨5, 5⟩] = [⟨0, 0⟩, ⟨5, 5⟩] :=
  ⟨by decide, claim_C8_small_inputs _ (by decide)⟩

unseal Rat.add Rat.mul Rat.sub Rat.inv Nat.gcd in
/-- C2, counterexample: on the collinear triangle (0,0), (1,0), (2,0) the
source raises ZeroDivisionError from the division by the vanishing
determinant, not the DegenerateInput error the claim names (the spec itself
records that DegenerateInput is absent from the reference behaviour). -/
theorem claim_C2_counterexample :
    Circle.from_triangle ⟨⟨0, 0⟩, ⟨1, 0⟩, ⟨2, 0⟩⟩ = .error .zeroDivisionError ∧
    Circle.from_triangle ⟨⟨0, 0⟩, ⟨1, 0⟩, ⟨2, 0⟩⟩ ≠ .error .degenerateInput := by
  constructor
  · decide
  · decide

unseal Rat.add Rat.mul Rat.sub Rat.inv Nat.gcd in
/-- C2, amended: Circle.from_triangle fails (with ZeroDivisionError) exactly
on triangles with collinear vertices, and delaunay_triangulation on three
collinear points surfaces an error rather than returning a malformed
triangle (the AttributeError of the shares_vertex slip, raised at the final
filter before any degenerate circumcircle is computed). -/
theorem claim_C2_amended :
    (∀ t : Triangle, Collinear3 t ↔ Circle.from_triangle t = .error .zeroDivisionError) ∧
    delaunay_triangulation [⟨0, 0⟩, ⟨1, 0⟩, ⟨2, 0⟩] = .error .attributeError := by
  constructor
  · intro t
    have hd : triD1 t = (t.p2.x - t.p1.x) * (t.p3.y - t.p1.y)
        - (t.p3.x - t.p1.x) * (t.p2.y - t.p1.y) := by
      unfold triD1; ring
    unfold Circle.from_triangle
    constructor
    · intro h
      have h0 : triD1 t = 0 := by
        unfold Collinear3 at h; rw [hd]; linarith
      simp [h0]
    · intro h
      by_cases h0 : triD1 t = 0
      · unfold Collinear3
        rw [hd] at h0; linarith
      · simp [h0] at h
  · decide

unseal Rat.add Rat.mul Rat.sub Rat.inv Nat.gcd in
/-- C1: delaunay_triangulation cannot return a triangulation on any input of
three or more points: the final filter of the source calls the method
shares_vertex, which class Triangle does not define (it defines
shares_point), so Python raises AttributeError; here evaluated on the right
triangle (0,0), (1,0), (0,1). -/
theorem claim_C1_delaunay_attribute_error :
    delaunay_triangulation [⟨0, 0⟩, ⟨1, 0⟩, ⟨0, 1⟩] = .error .attributeError := by
  decide

unseal Rat.add Rat.mul Rat.sub Rat.inv Nat.gcd in
/-- C4: convex_hull is not idempotent.  On the five points below the first
run returns the interior point (1,1) as part of the hull (find_hull has no
zero-distance guard, so a point on the chord of a recursive call is emitted
as a hull vertex), and the second run removes it, so the two outputs differ
as point sets. -/
theorem claim_C4_not_idempotent :
    convex_hull [⟨0, 1⟩, ⟨1, 1⟩, ⟨1, 2⟩, ⟨2, 0⟩, ⟨2, 1⟩]
      = [⟨0, 1⟩, ⟨1, 2⟩, ⟨2, 1⟩, ⟨1, 1⟩, ⟨2, 0⟩] ∧
    convex_hull (convex_hull [⟨0, 1⟩, ⟨1, 1⟩, ⟨1, 2⟩, ⟨2, 0⟩, ⟨2, 1⟩])
      = [⟨0, 1⟩, ⟨1, 2⟩, ⟨2, 1⟩, ⟨2, 0⟩] ∧
    (convex_hull (convex_hull [⟨0, 1⟩, ⟨1, 1⟩, ⟨1, 2⟩, ⟨2, 0⟩, ⟨2, 1⟩])).toFinset
      ≠ (convex_hull [⟨0, 1⟩, ⟨1, 1⟩, ⟨1, 2⟩, ⟨2, 0⟩, ⟨2, 1⟩]).toFinset := by
  refine ⟨by decide, by decide, by decide⟩

unseal Rat.add Rat.mul Rat.sub Rat.inv Nat.gcd in
/-- C3, counterexample: the two hull constructions do not return the same
ordered sequence; on two points given in decreasing abscissa order the
divide-and-conquer hull sorts them while Quickhull returns them as given. -/
theorem claim_C3_counterexample :
    dc_convex_hull [⟨1, 0⟩, ⟨0, 0⟩] ≠ convex_hull [⟨1, 0⟩, ⟨0, 0⟩] := by
  decide

/-- C3, amended: the spec-modelled divide-and-conquer hull and the Quickhull
of the source return the same point set, up to order, on every input of at
most two points; their ordered outputs differ in general, since the
divide-and-conquer construction sorts by coordinate while Quickhull returns
small inputs in their given order. -/
theorem claim_C3_amended (l : List Point) (h : l.length ≤ 2) :
    (dc_convex_hull l).Perm (convex_hull l) := by
  have hch : convex_hull l = l := by
    unfold convex_hull
    rw [if_pos (by omega)]
  rw [hch]
  rcases l with _ | ⟨p, _ | ⟨q, _ | ⟨r, tl⟩⟩⟩
  · simp [dc_convex_hull]
  · simp [dc_convex_hull]
  · by_cases hpq : lexLe p q
    · have hdc : dc_convex_hull [p, q] = [p, q] := by
        simp [dc_convex_hull, sortLex, insertLex, hpq, upperHullDC, lowerHullDC]
      rw [hdc]
    · have hdc : dc_convex_hull [p, q] = [q, p] := by
        simp [dc_convex_hull, sortLex, insertLex, hpq, upperHullDC, lowerHullDC]
      rw [hdc]
      exact List.Perm.swap p q []
  · simp at h

/-- Witness for the amended C3 at a concrete two-point input. -/
theorem claim_C3_amended_witness :
    ([⟨1, 0⟩, ⟨0, 0⟩] : List Point).length ≤ 2 ∧
    (dc_convex_hull [⟨1, 0⟩, ⟨0, 0⟩]).Perm (convex_hull [⟨1, 0⟩, ⟨0, 0⟩]) :=
  ⟨by decide, claim_C3_amended _ (by decide)⟩

/-- C6: is_strictly_below holds exactly when the point of the line at the
abscissa of p (at the ordinate of p for a vertical line) lies strictly below
p (strictly to its left for a vertical line), and a point on the line is
never strictly above it. -/
theorem claim_C6_is_strictly_below (l : Line) (p : Point) (hl : l.a ≠ 0 ∨ l.b ≠ 0) :
    (l.b ≠ 0 →
      (l.is_strictly_below p = true ↔ ∃ y0, l.contains ⟨p.x, y0⟩ = true ∧ y0 < p.y)) ∧
    (l.b = 0 →
      (l.is_strictly_below p = true ↔ ∃ x0, l.contains ⟨x0, p.y⟩ = true ∧ x0 < p.x)) ∧
    (l.contains p = true → l.is_strictly_below p = false) := by
  refine ⟨?_, ?_, ?_⟩
  · intro hb
    simp only [Line.is_strictly_below, if_neg hb, Line.contains, decide_eq_true_eq]
    constructor
    · intro hlt
      refine ⟨-(p.x * l.a + l.c) / l.b, ?_, hlt⟩
      field_simp
      ring
    · rintro ⟨y0, hy0, hlt⟩
      have hy : y0 = -(p.x * l.a + l.c) / l.b := by
        field_simp
        linarith
      rw [hy] at hlt
      exact hlt
  · intro hb
    have ha : l.a ≠ 0 := hl.resolve_right fun hh => hh hb
    unfold Line.is_strictly_below
    rw [if_pos hb]
    simp only [Line.contains, hb, zero_mul, add_zero, decide_eq_true_eq]
    constructor
    · intro hlt
      refine ⟨-l.c / l.a, ?_, hlt⟩
      field_simp
      ring
    · rintro ⟨x0, hx0, hlt⟩
      have hx : x0 = -l.c / l.a := by
        field_simp
        linarith
      rw [hx] at hlt
      exact hlt
  · intro hc
    simp only [Line.contains, decide_eq_true_eq] at hc
    unfold Line.is_strictly_below
    by_cases hb : l.b = 0
    · have ha : l.a ≠ 0 := hl.resolve_right fun hh => hh hb
      rw [if_pos hb]
      simp only [decide_eq_false_iff_not, not_lt]
      rw [hb] at hc
      have : p.x = -l.c / l.a := by
        field_simp
        linarith
      rw [this]
    · rw [if_neg hb]
      simp only [decide_eq_false_iff_not, not_lt]
      have : -(p.x * l.a + l.c) / l.b = p.y := by
        field_simp
        linarith
      rw [this]

/-- Witness for C6 at the line x - y = 0 and the point (0, 1). -/
theorem claim_C6_is_strictly_below_witness :
    ((⟨1, -1, 0⟩ : Line).a ≠ 0 ∨ (⟨1, -1, 0⟩ : Line).b ≠ 0) ∧
    (((⟨1, -1, 0⟩ : Line).b ≠ 0 →
      ((⟨1, -1, 0⟩ : Line).is_strictly_below ⟨0, 1⟩ = true ↔
        ∃ y0, (⟨1, -1, 0⟩ : Line).contains ⟨(⟨0, 1⟩ : Point).x, y0⟩ = true ∧
          y0 < (⟨0, 1⟩ : Point).y)) ∧
    ((⟨1, -1, 0⟩ : Line).b = 0 →
      ((⟨1, -1, 0⟩ : Line).is_strictly_below ⟨0, 1⟩ = true ↔
        ∃ x0, (⟨1, -1, 0⟩ : Line).contains ⟨x0, (⟨0, 1⟩ : Point).y⟩ = true ∧
          x0 < (⟨0, 1⟩ : Point).x)) ∧
    ((⟨1, -1, 0⟩ : Line).contains ⟨0, 1⟩ = true →
      (⟨1, -1, 0⟩ : Line).is_strictly_below ⟨0, 1⟩ = false)) :=
  ⟨Or.inl one_ne_zero, claim_C6_is_strictly_below ⟨1, -1, 0⟩ ⟨0, 1⟩ (Or.inl one_ne_zero)⟩

/-- C7: Line.intersection returns no point exactly on equal slopes (parallel
lines, including coincident lines and two vertical lines), and any returned
point lies on both lines. -/
theorem claim_C7_intersection (l o : Line) (hl : l.a ≠ 0 ∨ l.b ≠ 0)
    (ho : o.a ≠ 0 ∨ o.b ≠ 0) :
    (l.slope = o.slope → l.intersection o = none) ∧
    (∀ p, l.intersection o = some p → l.contains p = true ∧ o.contains p = true) := by
  constructor
  · intro hs
    simp [Line.intersection, hs]
  · intro p hp
    by_cases hs : l.slope = o.slope
    · simp [Line.intersection, hs] at hp
    · simp only [Line.intersection, if_neg hs] at hp
      have hden : o.a * l.b - l.a * o.b ≠ 0 := by
        by_cases hlb : l.b = 0
        · by_cases hob : o.b = 0
          · exact absurd (by simp [Line.slope, hlb, hob]) hs
          · have hla : l.a ≠ 0 := hl.resolve_right fun hh => hh hlb
            rw [hlb]
            intro hzero
            exact hla (by
              have : l.a * o.b = 0 := by linarith
              rcases mul_eq_zero.mp this with h' | h'
              · exact h'
              · exact absurd h' hob)
        · by_cases hob : o.b = 0
          · have hoa : o.a ≠ 0 := ho.resolve_right fun hh => hh hob
            rw [hob]
            intro hzero
            rcases mul_eq_zero.mp (by linarith : o.a * l.b = 0) with h' | h'
            · exact hoa h'
            · exact hlb h'
          · intro hzero
            apply hs
            simp only [Line.slope, if_pos hlb, if_pos hob, Option.some.injEq]
            rw [div_eq_div_iff hlb hob] at *
            · ring_nf
              ring_nf at hzero
              nlinarith [hzero]
      simp only [Option.some.injEq] at hp
      subst hp
      by_cases hla : l.a ≠ 0
      · simp only [if_pos hla, Line.contains, decide_eq_true_eq]
        constructor
        · field_simp
          ring
        · field_simp
          ring
      · have hla0 : l.a = 0 := not_not.mp hla
        have hlb : l.b ≠ 0 := hl.resolve_left fun hh => hh hla0
        have hoa : o.a ≠ 0 := by
          intro hoa0
          apply hs
          have hob : o.b ≠ 0 := ho.resolve_left fun hh => hh hoa0
          simp [Line.slope, hlb, hob, hla0, hoa0]
        simp only [if_neg hla, Line.contains, decide_eq_true_eq, hla0]
        constructor
        · field_simp
          ring
        · field_simp
          ring

/-- Witness for C7 at the crossing lines x - y = 0 and x + y - 2 = 0. -/
theorem claim_C7_intersection_witness :
    ((⟨1, -1, 0⟩ : Line).a ≠ 0 ∨ (⟨1, -1, 0⟩ : Line).b ≠ 0) ∧
    ((⟨1, 1, -2⟩ : Line).a ≠ 0 ∨ (⟨1, 1, -2⟩ : Line).b ≠ 0) ∧
    (((⟨1, -1, 0⟩ : Line).slope = (⟨1, 1, -2⟩ : Line).slope →
      (⟨1, -1, 0⟩ : Line).intersection ⟨1, 1, -2⟩ = none) ∧
    (∀ p, (⟨1, -1, 0⟩ : Line).intersection ⟨1, 1, -2⟩ = some p →
      (⟨1, -1, 0⟩ : Line).contains p = true ∧ (⟨1, 1, -2⟩ : Line).contains p = true)) :=
  ⟨Or.inl one_ne_zero, Or.inl one_ne_zero,
    claim_C7_intersection ⟨1, -1, 0⟩ ⟨1, 1, -2⟩ (Or.inl one_ne_zero) (Or.inl one_ne_zero)⟩

/-- C9: every branch of the ray-angle computation of voronoi_diagram lands in
the interval from 0 inclusive to 2 pi exclusive (the special-cased horizontal
and vertical perpendiculars and the general arctangent branch adjusted to the
correct quadrant), and hence every ray emitted by voronoi_diagram has its
direction angle in that interval. -/
theorem claim_C9_ray_angles :
    (∀ (a b : ℝ) (below : Bool),
      0 ≤ rayAngle a b below ∧ rayAngle a b below < 2 * Real.pi) ∧
    (∀ (pts : List Point) (res : List Segment × List Ray),
      voronoi_diagram pts = .ok res →
        ∀ r ∈ res.2, 0 ≤ r.angle ∧ r.angle < 2 * Real.pi) := by
  have hpi := Real.pi_pos
  have hang : ∀ (a b : ℝ) (below : Bool),
      0 ≤ rayAngle a b below ∧ rayAngle a b below < 2 * Real.pi := by
    intro a b below
    unfold rayAngle
    by_cases h1 : a = 0
    · rw [if_pos h1]
      cases below
      · rw [if_neg (by simp : ¬ (false = true))]
        exact ⟨le_refl 0, by linarith⟩
      · rw [if_pos rfl]
        exact ⟨le_of_lt hpi, by linarith⟩
    · rw [if_neg h1]
      by_cases h2 : b = 0
      · rw [if_pos h2]
        cases below
        · rw [if_neg (by simp : ¬ (false = true))]
          exact ⟨by linarith, by linarith⟩
        · rw [if_pos rfl]
          exact ⟨by linarith, by linarith⟩
      · rw [if_neg h2]
        have hs : -a / b ≠ 0 := div_ne_zero (neg_ne_zero.mpr h1) h2
        have harc1 : Real.arctan (-a / b) < Real.pi / 2 := Real.arctan_lt_pi_div_two _
        have harc2 : -(Real.pi / 2) < Real.arctan (-a / b) :=
          Real.neg_pi_div_two_lt_arctan _
        have hbase : 0 < (if 0 ≤ -a / b then Real.arctan (-a / b)
            else Real.pi - |Real.arctan (-a / b)|) ∧
            (if 0 ≤ -a / b then Real.arctan (-a / b)
            else Real.pi - |Real.arctan (-a / b)|) < Real.pi := by
          by_cases h3 : 0 ≤ -a / b
          · rw [if_pos h3]
            have hpos : 0 < -a / b := lt_of_le_of_ne h3 (Ne.symm hs)
            have : Real.arctan 0 < Real.arctan (-a / b) := Real.arctan_strictMono hpos
            rw [Real.arctan_zero] at this
            exact ⟨this, by linarith⟩
          · rw [if_neg h3]
            push_neg at h3
            have hneg : Real.arctan (-a / b) < Real.arctan 0 := Real.arctan_strictMono h3
            rw [Real.arctan_zero] at hneg
            rw [abs_of_neg hneg]
            constructor <;> linarith
        cases below
        · rw [if_neg (by simp : ¬ (false = true))]
          exact ⟨le_of_lt hbase.1, by linarith [hbase.2]⟩
        · rw [if_pos rfl]
          exact ⟨by linarith [hbase.1], by linarith [hbase.2]⟩
  refine ⟨hang, ?_⟩
  intro pts res h r hr
  unfold voronoi_diagram at h
  cases hcore : voronoi_core pts with
  | error e => rw [hcore] at h; simp [Except.map] at h
  | ok sr =>
    rw [hcore] at h
    simp only [Except.map, Except.ok.injEq] at h
    rw [← h] at hr
    simp only [List.mem_map] at hr
    obtain ⟨d, _, rfl⟩ := hr
    exact hang _ _ _

/-- Witness for C9 on the empty input, where voronoi_diagram returns
successfully with no rays. -/
theorem claim_C9_ray_angles_witness :
    voronoi_diagram ([] : List Point) = .ok ([], []) ∧
    ∀ r ∈ (([], []) : List Segment × List Ray).2,
      0 ≤ r.angle ∧ r.angle < 2 * Real.pi :=
  ⟨rfl, claim_C9_ray_angles.2 [] ([], []) rfl⟩

unseal Rat.add Rat.mul Rat.sub Rat.inv Nat.gcd in
/-- C10: on four cocircular points, the claimed failure in the Segment
constructor is unreachable: voronoi_diagram raises AttributeError inside
delaunay_triangulation (the shares_vertex slip) before any Voronoi segment is
built. -/
theorem claim_C10_cocircular_attribute_error :
    voronoi_diagram [⟨0, 0⟩, ⟨2, 0⟩, ⟨0, 2⟩, ⟨2, 2⟩] = .error .attributeError := by
  have h : voronoi_core [⟨0, 0⟩, ⟨2, 0⟩, ⟨0, 2⟩, ⟨2, 2⟩] = .error .attributeError := by
    decide
  unfold voronoi_diagram
  rw [h]
  rfl

end CompGeo
